import Mathlib

/-!
Verification development for the loto-notification-service repository.

The development shallowly embeds the device registry (src/db.ts, both schema
variants), the HTTP dispatch handlers (src/server.ts and the richer server
variant), and the event-bus notification handler.  The database is modelled
as a list of rows; SQL statements become list operations; the push provider
is modelled as an oracle assigning a per-token outcome.
-/

namespace Loto

/-- Outcome the push provider reports for a single token inside a
`sendEachForMulticast` call: a success, or a failure carrying the
provider error code string. -/
inductive SendResult where
  | success
  | failure (code : String)
deriving DecidableEq, Repr

/-- Whether a per-token response is a success (`r.success` in the source). -/
def isSuccess : SendResult → Bool
  | .success => true
  | .failure _ => false

/-- Whether the character list `needle` is an initial segment of `hay`. -/
def leadsChars : List Char → List Char → Bool
  | [], _ => true
  | _ :: _, [] => false
  | a :: as, b :: bs => a = b && leadsChars as bs

/-- Whether `needle` occurs contiguously somewhere inside `hay`. -/
def occursIn (needle : List Char) : List Char → Bool
  | [] => needle.isEmpty
  | b :: bs => leadsChars needle (b :: bs) || occursIn needle bs

/-- JS `hay.includes(sub)`: substring containment test. -/
def strIncludes (hay sub : String) : Bool := occursIn sub.toList hay.toList

/-- Dead-token classification from the dispatch handlers:
`code.includes('registration-token-not-registered') ||
 code.includes('invalid-registration-token')`. -/
def isDeadCode (code : String) : Bool :=
  strIncludes code "registration-token-not-registered" ||
  strIncludes code "invalid-registration-token"

/-- A token is classified dead under `oracle` when its response is a failure
whose code matches the dead-token patterns. -/
def deadFor (oracle : String → SendResult) (t : String) : Bool :=
  match oracle t with
  | .success => false
  | .failure code => isDeadCode code

/-- Fuel-indexed worker for `chunk`; the fuel is an upper bound on the list
length so the recursion is structural (each step consumes at least one
element when `size ≥ 1`). -/
def chunkAux {α : Type} (size : Nat) : Nat → List α → List (List α)
  | _, [] => []
  | 0, _ :: _ => []
  | fuel + 1, a :: rest => (a :: rest).take size :: chunkAux size fuel ((a :: rest).drop size)

/-- The `chunk(arr, size)` helper of the servers: slices `arr` into contiguous
pieces of `size` elements (the last piece may be shorter). -/
def chunk {α : Type} (arr : List α) (size : Nat) : List (List α) :=
  chunkAux size arr.length arr

/-- Device row of the richer schema variant: `devices` after the migrations
adding `game_id` and `active`.  `updatedAt` is an abstract clock value. -/
structure Row where
  deviceId : String
  userId : Option Int
  gameId : Option Int
  fcmToken : String
  platform : Option String
  appVersion : Option String
  active : Bool
  updatedAt : Nat
deriving DecidableEq, Repr

/-- Argument record of the richer `upsertDevice`. -/
structure UpsertDeviceInput where
  deviceId : String
  userId : Option Int
  gameId : Option Int
  fcmToken : String
  platform : Option String
  appVersion : Option String
deriving DecidableEq, Repr

/-- JS `x || null` on an optional string: empty or absent collapses to null. -/
def jsOrNull : Option String → Option String
  | none => none
  | some s => if s = "" then none else some s

/-- Step (a) of the upsert transaction:
`DELETE FROM devices WHERE fcm_token = $1 AND device_id <> $2`. -/
def deleteOtherHolders (rows : List Row) (fcmToken deviceId : String) : List Row :=
  rows.filter (fun r => !(decide (r.fcmToken = fcmToken) && decide (r.deviceId ≠ deviceId)))

/-- Step (b) of the richer upsert transaction:
`UPDATE devices SET active = false WHERE device_id = $1`. -/
def markInactive (rows : List Row) (deviceId : String) : List Row :=
  rows.map (fun r => if r.deviceId = deviceId then { r with active := false } else r)

/-- Step (c) of the richer upsert transaction: `INSERT ... ON CONFLICT
(device_id) DO UPDATE`, with `platform || null` / `appVersion || null`
applied to the query parameters as in the source. -/
def insertOnConflict (rows : List Row) (inp : UpsertDeviceInput) (now : Nat) : List Row :=
  if rows.any (fun r => decide (r.deviceId = inp.deviceId)) then
    rows.map (fun r =>
      if r.deviceId = inp.deviceId then
        { r with userId := inp.userId, gameId := inp.gameId, fcmToken := inp.fcmToken,
                 platform := jsOrNull inp.platform, appVersion := jsOrNull inp.appVersion,
                 active := true, updatedAt := now }
      else r)
  else
    rows ++ [{ deviceId := inp.deviceId, userId := inp.userId, gameId := inp.gameId,
               fcmToken := inp.fcmToken, platform := jsOrNull inp.platform,
               appVersion := jsOrNull inp.appVersion, active := true, updatedAt := now }]

/-- The richer `upsertDevice`: composition of the three transaction steps
on the success path. -/
def upsertDevice (rows : List Row) (inp : UpsertDeviceInput) (now : Nat) : List Row :=
  insertOnConflict
    (markInactive (deleteOtherHolders rows inp.fcmToken inp.deviceId) inp.deviceId)
    inp now

/-- Richer `getTokensByUserId`:
`SELECT fcm_token FROM devices WHERE user_id = $1 AND active = true`. -/
def getTokensByUserId (rows : List Row) (userId : Int) : List String :=
  (rows.filter (fun r => decide (r.userId = some userId) && r.active)).map (fun r => r.fcmToken)

/-- The active subset of the registry (`WHERE active = true`). -/
def activeRows (rows : List Row) : List Row := rows.filter (fun r => r.active)

/-- `getActiveTokensCount`: `SELECT COUNT(*) FROM devices WHERE active = true`. -/
def getActiveTokensCount (rows : List Row) : Nat := (activeRows rows).length

/-- Lexicographic comparison of strings as character lists (byte order of
text columns), kernel-computable. -/
def charsLe : List Char → List Char → Bool
  | [], _ => true
  | _ :: _, [] => false
  | a :: as, b :: bs => if a = b then charsLe as bs else decide (a < b)

/-- Total preorder realising `ORDER BY updated_at DESC, device_id ASC`. -/
def pageOrder (a b : Row) : Bool :=
  decide (b.updatedAt < a.updatedAt) ||
  (decide (a.updatedAt = b.updatedAt) && charsLe a.deviceId.toList b.deviceId.toList)

/-- The active rows in the order the paging query returns them. -/
def sortedActive (rows : List Row) : List Row :=
  List.insertionSort (fun a b => pageOrder a b = true) (activeRows rows)

/-- The full ordered token list the broadcast pages walk over. -/
def activeTokenList (rows : List Row) : List String :=
  (sortedActive rows).map (fun r => r.fcmToken)

/-- `getAllActiveTokensPage`: the ordered active-token query with
`LIMIT limit OFFSET offset`. -/
def getAllActiveTokensPage (rows : List Row) (limit offset : Nat) : List String :=
  ((activeTokenList rows).drop offset).take limit

/-- `deleteToken`: `DELETE FROM devices WHERE fcm_token = $1`. -/
def deleteToken (rows : List Row) (token : String) : List Row :=
  rows.filter (fun r => !decide (r.fcmToken = token))

/-- Exact-match predicate of `deleteDeviceByIdentifiers`. -/
def matchesIdentifiers (deviceId fcmToken : String) (userId gameId : Int) (r : Row) : Bool :=
  decide (r.deviceId = deviceId) && decide (r.fcmToken = fcmToken) &&
  decide (r.userId = some userId) && decide (r.gameId = some gameId)

/-- `deleteDeviceByIdentifiers`: four-way exact delete returning the registry
after the delete together with the affected row count. -/
def deleteDeviceByIdentifiers (rows : List Row) (deviceId fcmToken : String)
    (userId gameId : Int) : List Row × Nat :=
  (rows.filter (fun r => !matchesIdentifiers deviceId fcmToken userId gameId r),
   (rows.filter (matchesIdentifiers deviceId fcmToken userId gameId)).length)

/-- Device row of the base schema variant (no `game_id`, no `active`;
`user_id` is a text column). -/
structure BaseRow where
  deviceId : String
  userId : Option String
  fcmToken : String
  platform : Option String
  appVersion : Option String
  updatedAt : Nat
deriving DecidableEq, Repr

/-- Argument record of the base `upsertDevice`. -/
structure BaseUpsertInput where
  deviceId : String
  userId : Option String
  fcmToken : String
  platform : Option String
  appVersion : Option String
deriving DecidableEq, Repr

namespace Base

/-- Base-variant step (a): same token-eviction delete as the richer variant. -/
def deleteOtherHolders (rows : List BaseRow) (fcmToken deviceId : String) : List BaseRow :=
  rows.filter (fun r => !(decide (r.fcmToken = fcmToken) && decide (r.deviceId ≠ deviceId)))

/-- Base-variant `INSERT ... ON CONFLICT (device_id) DO UPDATE`; the query
parameters apply `userId || null`, `platform || null`, `appVersion || null`. -/
def insertOnConflict (rows : List BaseRow) (inp : BaseUpsertInput) (now : Nat) : List BaseRow :=
  if rows.any (fun r => decide (r.deviceId = inp.deviceId)) then
    rows.map (fun r =>
      if r.deviceId = inp.deviceId then
        { r with userId := jsOrNull inp.userId, fcmToken := inp.fcmToken,
                 platform := jsOrNull inp.platform, appVersion := jsOrNull inp.appVersion,
                 updatedAt := now }
      else r)
  else
    rows ++ [{ deviceId := inp.deviceId, userId := jsOrNull inp.userId,
               fcmToken := inp.fcmToken, platform := jsOrNull inp.platform,
               appVersion := jsOrNull inp.appVersion, updatedAt := now }]

/-- Base `upsertDevice`: token-eviction delete followed by the upsert insert. -/
def upsertDevice (rows : List BaseRow) (inp : BaseUpsertInput) (now : Nat) : List BaseRow :=
  insertOnConflict (deleteOtherHolders rows inp.fcmToken inp.deviceId) inp now

/-- Base `getTokensByUserId`:
`SELECT fcm_token FROM devices WHERE user_id = $1` (no active filter). -/
def getTokensByUserId (rows : List BaseRow) (userId : String) : List String :=
  (rows.filter (fun r => decide (r.userId = some userId))).map (fun r => r.fcmToken)

/-- Base `deleteToken`: `DELETE FROM devices WHERE fcm_token = $1`. -/
def deleteToken (rows : List BaseRow) (token : String) : List BaseRow :=
  rows.filter (fun r => !decide (r.fcmToken = token))

end Base

/-- Accumulator of the user-targeted dispatch loop: running `sent` and
`failed` totals and the collected dead-token list. -/
structure DispatchAcc where
  sent : Nat
  failed : Nat
  deadTokens : List String
deriving DecidableEq, Repr

/-- The per-token response list of one `sendEachForMulticast` call: each
token in the chunk receives exactly one response from the oracle. -/
def multicastResponses (oracle : String → SendResult) (tokens : List String) : List SendResult :=
  tokens.map oracle

/-- `resp.successCount` of a multicast response. -/
def successCount (responses : List SendResult) : Nat :=
  (responses.filter isSuccess).length

/-- `resp.failureCount` of a multicast response. -/
def failureCount (responses : List SendResult) : Nat :=
  (responses.filter (fun r => !isSuccess r)).length

/-- The dead tokens collected from one chunk: the `forEach` over
`resp.responses` pushing `part[idx]` when the failure code matches. -/
def deadOfChunk (part : List String) (responses : List SendResult) : List String :=
  (part.zip responses).filterMap (fun pr =>
    match pr.2 with
    | .success => none
    | .failure code => if isDeadCode code then some pr.1 else none)

/-- Body of the dispatch loop for one chunk: submit the multicast call,
add the reported counts, and append the chunk's dead tokens. -/
def dispatchStep (oracle : String → SendResult) (acc : DispatchAcc)
    (part : List String) : DispatchAcc :=
  let responses := multicastResponses oracle part
  { sent := acc.sent + successCount responses,
    failed := acc.failed + failureCount responses,
    deadTokens := acc.deadTokens ++ deadOfChunk part responses }

/-- The user-targeted dispatch loop of `POST /push/user` (identical in both
server variants) and of the event-bus handler: chunk the tokens by 500,
submit each chunk, accumulate counts, and collect dead tokens. -/
def dispatchChunks (oracle : String → SendResult) (tokens : List String) : DispatchAcc :=
  (chunk tokens 500).foldl (dispatchStep oracle) ⟨0, 0, []⟩

/-- JSON response shape of the push endpoints; absent fields are `none`. -/
structure ApiResp where
  status : Nat
  ok : Bool
  sent : Option Nat
  failed : Option Nat
  removedDead : Option Nat
  info : Option String
  message : Option String
deriving DecidableEq, Repr

/-- JS falsiness of an optional string field (absent or empty). -/
def falsyStr : Option String → Bool
  | none => true
  | some s => decide (s = "")

/-- JS falsiness of an optional numeric field (absent or zero). -/
def falsyNum : Option Int → Bool
  | none => true
  | some n => decide (n = 0)

/-- Request body of `POST /push/user` (richer variant); the payload fields
`data` and `image` do not influence control flow and are not modelled. -/
structure PushUserBody where
  userId : Option Int
  title : Option String
  body : Option String
deriving DecidableEq, Repr

/-- Observable outcome of one `POST /push/user` request: the JSON response,
the registry after the request, and how many provider calls were made. -/
structure PushUserOutcome where
  resp : ApiResp
  registry : List Row
  providerCalls : Nat
deriving DecidableEq, Repr

/-- The `POST /push/user` handler of the richer server variant. -/
def pushUserHandler (oracle : String → SendResult) (rows : List Row)
    (b : PushUserBody) : PushUserOutcome :=
  if falsyNum b.userId || falsyStr b.title || falsyStr b.body then
    { resp := { status := 400, ok := false, sent := none, failed := none, removedDead := none,
                info := none, message := some "userId, title, body are required" },
      registry := rows, providerCalls := 0 }
  else
    let tokens := getTokensByUserId rows (b.userId.getD 0)
    if tokens.isEmpty then
      { resp := { status := 200, ok := true, sent := some 0, failed := none, removedDead := none,
                  info := some "No tokens for user", message := none },
        registry := rows, providerCalls := 0 }
    else
      let acc := dispatchChunks oracle tokens
      { resp := { status := 200, ok := true, sent := some acc.sent, failed := some acc.failed,
                  removedDead := some acc.deadTokens.length, info := none, message := none },
        registry := acc.deadTokens.foldl deleteToken rows,
        providerCalls := (chunk tokens 500).length }

/-- `Math.ceil(n / p)` for natural `n` and positive `p`. -/
def jsCeilDiv (n p : Nat) : Nat := (n + p - 1) / p

/-- The pages the `POST /push/all` handler fetches: none when the active
count is zero, otherwise `ceil(total/20)` calls to `getAllActiveTokensPage`
with `limit = 20` and `offset = page * 20`. -/
def pushAllPages (rows : List Row) : List (List String) :=
  let total := getActiveTokensCount rows
  if total = 0 then []
  else (List.range (jsCeilDiv total 20)).map
    (fun page => getAllActiveTokensPage rows 20 (page * 20))

/-- Observable outcome of one `POST /push/all` request. -/
structure PushAllOutcome where
  resp : ApiResp
  registry : List Row
  pagesFetched : List (List String)
deriving DecidableEq, Repr

/-- The `POST /push/all` handler of the richer server variant: pages through
the active tokens, multicasts each non-empty page, and accumulates counts.
It performs no dead-token collection and never mutates the registry. -/
def pushAllHandler (oracle : String → SendResult) (rows : List Row)
    (title body : Option String) : PushAllOutcome :=
  if falsyStr title || falsyStr body then
    { resp := { status := 400, ok := false, sent := none, failed := none, removedDead := none,
                info := none, message := some "title, body are required" },
      registry := rows, pagesFetched := [] }
  else
    let total := getActiveTokensCount rows
    if total = 0 then
      { resp := { status := 200, ok := true, sent := some 0, failed := none, removedDead := none,
                  info := some "No active users", message := none },
        registry := rows, pagesFetched := [] }
    else
      let pages := pushAllPages rows
      let acc := pages.foldl
        (fun (sf : Nat × Nat) tokens =>
          if tokens.isEmpty then sf
          else
            let responses := multicastResponses oracle tokens
            (sf.1 + successCount responses, sf.2 + failureCount responses))
        (0, 0)
      { resp := { status := 200, ok := true, sent := some acc.1, failed := some acc.2,
                  removedDead := none, info := none, message := none },
        registry := rows, pagesFetched := pages }

/-- A JSON field value as the event-bus handler sees it: absent, a string,
or a number (restricted to the integral values the claims concern). -/
inductive JsField where
  | missing
  | str (s : String)
  | num (n : Int)
deriving DecidableEq, Repr

/-- Payload of a `SendUserNotification` event; `chatId`, `route` and `image`
only feed the outgoing data payload and are not modelled. -/
structure KafkaData where
  userId : JsField
  title : Option String
  body : Option String
deriving DecidableEq, Repr

/-- Digit-string parser used by `jsNumber`: `none` when any character is not
a decimal digit or the digit string is empty. -/
def parseDigits (cs : List Char) : Option Nat :=
  if cs = [] then none
  else cs.foldl
    (fun acc c =>
      match acc with
      | none => none
      | some n => if c.isDigit then some (n * 10 + (c.toNat - 48)) else none)
    (some 0)

/-- Whitespace characters `Number` trims from both ends of its argument. -/
def isJsSpace (c : Char) : Bool :=
  c = ' ' || c = '\t' || c = '\n' || c = '\r'

/-- Both-ends whitespace trim on a character list. -/
def trimChars (cs : List Char) : List Char :=
  ((cs.dropWhile isJsSpace).reverse.dropWhile isJsSpace).reverse

/-- JS `Number(s)` on the integral fragment: whitespace is trimmed, the empty
string is `0`, an optional sign followed by decimal digits is an integer,
anything else is NaN (`none`).  Non-integral numeric literals are outside
this model. -/
def jsNumber (s : String) : Option Int :=
  match trimChars s.toList with
  | [] => some 0
  | '-' :: rest => (parseDigits rest).map (fun n => -(n : Int))
  | '+' :: rest => (parseDigits rest).map (fun n => (n : Int))
  | cs => (parseDigits cs).map (fun n => (n : Int))

/-- The event handler's userId coercion:
`data?.userId ?? ''` followed by `typeof raw === 'string' ? Number(raw) : raw`;
`none` stands for NaN. -/
def kafkaUserId : JsField → Option Int
  | .missing => jsNumber ""
  | .str s => jsNumber s
  | .num n => some n

/-- How processing of one `SendUserNotification` event ended. -/
inductive KafkaOutcome where
  | invalidUserId
  | missingTitleBody
  | noTokens
  | dispatched (deadTokens : List String)
deriving DecidableEq, Repr

/-- Outcome of the event-bus handler together with the registry after it. -/
structure KafkaResult where
  outcome : KafkaOutcome
  registry : List Row
deriving DecidableEq, Repr

/-- The `handleSendUserNotification` event handler: validates `userId`
(falsy-or-NaN rejection), validates `title`/`body`, resolves tokens, runs the
chunked dispatch, and deletes collected dead tokens. -/
def handleSendUserNotification (oracle : String → SendResult) (rows : List Row)
    (d : KafkaData) : KafkaResult :=
  let title := d.title.getD ""
  let body := d.body.getD ""
  match kafkaUserId d.userId with
  | none => ⟨.invalidUserId, rows⟩
  | some n =>
    if n = 0 then ⟨.invalidUserId, rows⟩
    else if title = "" || body = "" then ⟨.missingTitleBody, rows⟩
    else
      let tokens := getTokensByUserId rows n
      if tokens.isEmpty then ⟨.noTokens, rows⟩
      else
        let acc := dispatchChunks oracle tokens
        ⟨.dispatched acc.deadTokens,
         if acc.deadTokens.length = 0 then rows else acc.deadTokens.foldl deleteToken rows⟩

/-- Request body of `POST /devices/register` in the richer server variant.
A `none` field models a JSON `null`/absent value (`== null` in the source). -/
structure RegisterBodyR where
  deviceId : Option String
  userId : Option Int
  gameId : Option Int
  fcmToken : Option String
  platform : Option String
  appVersion : Option String
deriving DecidableEq, Repr

/-- Response of the richer register handler: a 400 with its message, or the
success payload `{ok:true, deviceId, userId, fcmToken}` together with the
registry after the upsert. -/
inductive RegisterResult where
  | badRequest (message : String)
  | okResult (registry : List Row) (deviceId : String) (userId : Option Int) (fcmToken : String)
deriving DecidableEq, Repr

/-- The `POST /devices/register` handler of the richer server variant: it
rejects a missing `deviceId`, `fcmToken`, `userId` or `gameId` with 400. -/
def registerDevice (rows : List Row) (b : RegisterBodyR) (now : Nat) : RegisterResult :=
  match b.deviceId with
  | none => .badRequest "deviceId required"
  | some dev =>
    match b.fcmToken with
    | none => .badRequest "fcmToken are required"
    | some tok =>
      match b.userId with
      | none => .badRequest "userId are required"
      | some uid =>
        match b.gameId with
        | none => .badRequest "gameId are required"
        | some gid =>
          let rows2 := upsertDevice rows
            ⟨dev, some uid, some gid, tok, b.platform, b.appVersion⟩ now
          .okResult rows2 dev (some uid) tok

/-- Request body of `POST /devices/register` in the base server variant. -/
structure RegisterBodyB where
  deviceId : Option String
  userId : Option String
  fcmToken : Option String
  platform : Option String
  appVersion : Option String
deriving DecidableEq, Repr

/-- Response of the base register handler. -/
inductive RegisterResultB where
  | badRequest (message : String)
  | okResult (registry : List BaseRow) (deviceId : String) (userId : Option String)
      (fcmToken : String)
deriving DecidableEq, Repr

namespace Base

/-- The `POST /devices/register` handler of the base server variant:
only `deviceId` and `fcmToken` are required (falsiness check); the stored
and returned `userId` is `userId || null`. -/
def registerDevice (rows : List BaseRow) (b : RegisterBodyB) (now : Nat) : RegisterResultB :=
  if falsyStr b.deviceId || falsyStr b.fcmToken then
    .badRequest "deviceId and fcmToken are required"
  else
    let dev := b.deviceId.getD ""
    let tok := b.fcmToken.getD ""
    let rows2 := upsertDevice rows
      ⟨dev, b.userId, tok, b.platform, b.appVersion⟩ now
    .okResult rows2 dev (jsOrNull b.userId) tok

/-- Request body of `POST /push/user` in the base server variant. -/
structure PushUserBodyB where
  userId : Option String
  title : Option String
  body : Option String
deriving DecidableEq, Repr

/-- Observable outcome of one base-variant `POST /push/user` request. -/
structure PushUserOutcomeB where
  resp : ApiResp
  registry : List BaseRow
  providerCalls : Nat
deriving DecidableEq, Repr

/-- The `POST /push/user` handler of the base server variant. -/
def pushUserHandler (oracle : String → SendResult) (rows : List BaseRow)
    (b : PushUserBodyB) : PushUserOutcomeB :=
  if falsyStr b.userId || falsyStr b.title || falsyStr b.body then
    { resp := { status := 400, ok := false, sent := none, failed := none, removedDead := none,
                info := none, message := some "userId, title, body are required" },
      registry := rows, providerCalls := 0 }
  else
    let tokens := getTokensByUserId rows (b.userId.getD "")
    if tokens.isEmpty then
      { resp := { status := 200, ok := true, sent := some 0, failed := none, removedDead := none,
                  info := some "No tokens for user", message := none },
        registry := rows, providerCalls := 0 }
    else
      let acc := dispatchChunks oracle tokens
      { resp := { status := 200, ok := true, sent := some acc.sent, failed := some acc.failed,
                  removedDead := some acc.deadTokens.length, info := none, message := none },
        registry := acc.deadTokens.foldl deleteToken rows,
        providerCalls := (chunk tokens 500).length }

end Base

/-- The three queries the richer upsert runs inside its transaction. -/
inductive TxStep where
  | delOthers
  | markOld
  | insertDev
deriving DecidableEq, Repr

/-- Committed database state after an upsert call, with an error flag. -/
structure TxResult where
  db : List Row
  errored : Bool
deriving DecidableEq, Repr

/-- The richer `upsertDevice` with explicit transaction bracketing.  `fail`
says which queries raise.  A `BEGIN` snapshot is taken; each failing step
triggers `ROLLBACK` (the committed state reverts to the snapshot) and the
error propagates; otherwise `COMMIT` publishes the worked state. -/
def upsertDeviceTx (fail : TxStep → Bool) (rows : List Row) (inp : UpsertDeviceInput)
    (now : Nat) : TxResult :=
  let snapshot := rows
  if fail .delOthers then { db := snapshot, errored := true }
  else
    let w1 := deleteOtherHolders rows inp.fcmToken inp.deviceId
    if fail .markOld then { db := snapshot, errored := true }
    else
      let w2 := markInactive w1 inp.deviceId
      if fail .insertDev then { db := snapshot, errored := true }
      else { db := insertOnConflict w2 inp now, errored := false }

/-- The two queries the base upsert runs inside its transaction. -/
inductive BaseTxStep where
  | delOthers
  | insertDev
deriving DecidableEq, Repr

/-- Committed base-variant database state after an upsert call. -/
structure BaseTxResult where
  db : List BaseRow
  errored : Bool
deriving DecidableEq, Repr

/-- The base `upsertDevice` with explicit transaction bracketing. -/
def baseUpsertDeviceTx (fail : BaseTxStep → Bool) (rows : List BaseRow)
    (inp : BaseUpsertInput) (now : Nat) : BaseTxResult :=
  let snapshot := rows
  if fail .delOthers then { db := snapshot, errored := true }
  else
    let w1 := Base.deleteOtherHolders rows inp.fcmToken inp.deviceId
    if fail .insertDev then { db := snapshot, errored := true }
    else { db := Base.insertOnConflict w1 inp now, errored := false }

/-- Key-pair uniqueness of a row list: pairwise distinct device keys and
pairwise distinct token keys. -/
def keysOk {α : Type} (dk tk : α → String) (rows : List α) : Prop :=
  rows.Pairwise (fun a b => dk a ≠ dk b ∧ tk a ≠ tk b)

/-- The registry invariant of the richer schema: `device_id` is the primary
key and `fcm_token` is unique. -/
def registryInv (rows : List Row) : Prop :=
  keysOk (fun r => r.deviceId) (fun r => r.fcmToken) rows

/-- The registry invariant of the base schema. -/
def baseRegistryInv (rows : List BaseRow) : Prop :=
  keysOk (fun r => r.deviceId) (fun r => r.fcmToken) rows

/-- Registry used by the broadcast counterexample: one active device whose
token the provider reports as permanently unregistered. -/
def cexBroadcastRegistry : List Row :=
  [{ deviceId := "d1", userId := some 1, gameId := some 1, fcmToken := "T",
     platform := none, appVersion := none, active := true, updatedAt := 0 }]

/-- Provider oracle failing every token with the unregistered-token code. -/
def cexDeadOracle : String → SendResult :=
  fun _ => .failure "messaging/registration-token-not-registered"

/-- Event payload used by the event-bus counterexample: a negative userId
with title and body present. -/
def cexNegativeUserData : KafkaData :=
  { userId := .num (-5), title := some "t", body := some "b" }

/-- Registry used by the event-bus counterexample: one active device owned
by user `-5`. -/
def cexNegativeUserRegistry : List Row :=
  [{ deviceId := "d9", userId := some (-5), gameId := some 1, fcmToken := "N",
     platform := none, appVersion := none, active := true, updatedAt := 0 }]

/-- Register body used by the richer-variant counterexample: `deviceId` and
`fcmToken` supplied, `userId` and `gameId` omitted. -/
def cexRegisterBody : RegisterBodyR :=
  { deviceId := some "d1", userId := none, gameId := none, fcmToken := some "t1",
    platform := none, appVersion := none }

/-- Two-device registry used by witnesses: distinct device ids and tokens. -/
def witnessRegistry : List Row :=
  [{ deviceId := "a", userId := some 1, gameId := some 1, fcmToken := "t1",
     platform := none, appVersion := none, active := true, updatedAt := 0 },
   { deviceId := "b", userId := some 1, gameId := some 1, fcmToken := "t2",
     platform := none, appVersion := none, active := true, updatedAt := 0 }]

/-- Upsert input used by witnesses: re-registers device `a` with the token
previously held by device `b`. -/
def witnessInput : UpsertDeviceInput :=
  { deviceId := "a", userId := some 2, gameId := some 3, fcmToken := "t2",
    platform := none, appVersion := none }

/-- Two-device base-variant registry used by witnesses. -/
def witnessBaseRegistry : List BaseRow :=
  [{ deviceId := "a", userId := some "1", fcmToken := "t1",
     platform := none, appVersion := none, updatedAt := 0 },
   { deviceId := "b", userId := some "1", fcmToken := "t2",
     platform := none, appVersion := none, updatedAt := 0 }]

/-- Base-variant upsert input used by witnesses. -/
def witnessBaseInput : BaseUpsertInput :=
  { deviceId := "a", userId := some "2", fcmToken := "t2",
    platform := none, appVersion := none }

/-- Event payload with a missing `userId`, used by a witness. -/
def witnessKafkaMissing : KafkaData :=
  { userId := .missing, title := some "t", body := some "b" }

/-- Base register body omitting `userId`, used by a witness. -/
def witnessBaseBody : RegisterBodyB :=
  { deviceId := some "d1", userId := none, fcmToken := some "tk",
    platform := none, appVersion := none }

/-- Push-user request body used by witnesses. -/
def witnessPushUserBody : PushUserBody :=
  { userId := some 1, title := some "t", body := some "b" }

/-- Base push-user request body used by witnesses. -/
def witnessPushUserBodyB : Base.PushUserBodyB :=
  { userId := some "1", title := some "t", body := some "b" }

/- ------------------------------------------------------------------ -/
/- Helper lemmas about `chunk`.                                        -/
/- ------------------------------------------------------------------ -/

theorem chunkAux_fuel_eq {α : Type} (size : Nat) (hs : 1 ≤ size) :
    ∀ (fuel1 : Nat) (fuel2 : Nat) (arr : List α), arr.length ≤ fuel1 → arr.length ≤ fuel2 →
      chunkAux size fuel1 arr = chunkAux size fuel2 arr := by
  intro fuel1
  induction fuel1 with
  | zero =>
    intro fuel2 arr h1 _
    have : arr = [] := List.eq_nil_of_length_eq_zero (Nat.le_zero.mp h1)
    subst this
    cases fuel2 <;> rfl
  | succ fuel ih =>
    intro fuel2 arr h1 h2
    cases arr with
    | nil => cases fuel2 <;> rfl
    | cons a rest =>
      cases fuel2 with
      | zero => simp at h2
      | succ fuel2 =>
        simp only [chunkAux]
        congr 1
        apply ih
        · have := List.length_drop size (a :: rest)
          simp at h1 ⊢
          omega
        · have := List.length_drop size (a :: rest)
          simp at h2 ⊢
          omega

theorem chunk_nil {α : Type} (size : Nat) : chunk ([] : List α) size = [] := rfl

theorem chunk_cons_unfold {α : Type} (size : Nat) (hs : 1 ≤ size) (arr : List α)
    (hne : arr ≠ []) :
    chunk arr size = arr.take size :: chunk (arr.drop size) size := by
  cases arr with
  | nil => exact absurd rfl hne
  | cons a rest =>
    show chunkAux size (rest.length + 1) (a :: rest) = _
    simp only [chunkAux]
    congr 1
    apply chunkAux_fuel_eq size hs
    · have := List.length_drop size (a :: rest)
      simp at this ⊢
      omega
    · exact Nat.le_refl _

theorem chunkAux_flatten {α : Type} (size : Nat) (hs : 1 ≤ size) :
    ∀ (fuel : Nat) (arr : List α), arr.length ≤ fuel →
      (chunkAux size fuel arr).flatten = arr := by
  intro fuel
  induction fuel with
  | zero =>
    intro arr h
    have : arr = [] := List.eq_nil_of_length_eq_zero (Nat.le_zero.mp h)
    subst this
    rfl
  | succ fuel ih =>
    intro arr h
    cases arr with
    | nil => rfl
    | cons a rest =>
      simp only [chunkAux, List.flatten_cons]
      rw [ih]
      · exact List.take_append_drop size (a :: rest)
      · have := List.length_drop size (a :: rest)
        simp at h ⊢
        omega

theorem chunk_flatten {α : Type} (size : Nat) (hs : 1 ≤ size) (arr : List α) :
    (chunk arr size).flatten = arr :=
  chunkAux_flatten size hs arr.length arr (Nat.le_refl _)

theorem chunkAux_mem_length {α : Type} (size : Nat) :
    ∀ (fuel : Nat) (arr : List α) (c : List α), c ∈ chunkAux size fuel arr →
      c.length ≤ size := by
  intro fuel
  induction fuel with
  | zero =>
    intro arr c hc
    cases arr <;> simp [chunkAux] at hc
  | succ fuel ih =>
    intro arr c hc
    cases arr with
    | nil => simp [chunkAux] at hc
    | cons a rest =>
      simp only [chunkAux, List.mem_cons] at hc
      rcases hc with h | h
      · subst h
        simp [List.length_take]
      · exact ih _ _ h

theorem chunk_mem_length {α : Type} (size : Nat) (arr : List α) (c : List α)
    (hc : c ∈ chunk arr size) : c.length ≤ size :=
  chunkAux_mem_length size arr.length arr c hc

theorem chunk_sizes_1200 {α : Type} (arr : List α) (h : arr.length = 1200) :
    (chunk arr 500).map List.length = [500, 500, 200] := by
  have h500 : (1 : Nat) ≤ 500 := by norm_num
  have hne1 : arr ≠ [] := by
    intro he
    rw [he] at h
    simp at h
  have e1 : chunk arr 500 = arr.take 500 :: chunk (arr.drop 500) 500 :=
    chunk_cons_unfold 500 h500 arr hne1
  have hl1 : (arr.drop 500).length = 700 := by
    simp [List.length_drop, h]
  have hne2 : arr.drop 500 ≠ [] := by
    intro he
    rw [he] at hl1
    simp at hl1
  have e2 : chunk (arr.drop 500) 500 =
      (arr.drop 500).take 500 :: chunk ((arr.drop 500).drop 500) 500 :=
    chunk_cons_unfold 500 h500 _ hne2
  have hl2 : ((arr.drop 500).drop 500).length = 200 := by
    simp [List.length_drop, h]
  have hne3 : (arr.drop 500).drop 500 ≠ [] := by
    intro he
    rw [he] at hl2
    simp at hl2
  have e3 : chunk ((arr.drop 500).drop 500) 500 =
      ((arr.drop 500).drop 500).take 500 :: chunk (((arr.drop 500).drop 500).drop 500) 500 :=
    chunk_cons_unfold 500 h500 _ hne3
  have hl3 : (((arr.drop 500).drop 500).drop 500).length = 0 := by
    simp [List.length_drop, h]
  have e4 : ((arr.drop 500).drop 500).drop 500 = [] :=
    List.eq_nil_of_length_eq_zero hl3
  rw [e1, e2, e3, e4, chunk_nil]
  simp [List.length_take, h, hl1, hl2]

/- ------------------------------------------------------------------ -/
/- Helper lemmas about the dispatch loop.                              -/
/- ------------------------------------------------------------------ -/

theorem successCount_add_failureCount (responses : List SendResult) :
    successCount responses + failureCount responses = responses.length := by
  induction responses with
  | nil => rfl
  | cons r rs ih =>
    by_cases h : isSuccess r = true <;>
      simp [successCount, failureCount, List.filter_cons, h] at ih ⊢ <;> omega

theorem deadOfChunk_map (oracle : String → SendResult) (part : List String) :
    deadOfChunk part (part.map oracle) = part.filter (deadFor oracle) := by
  induction part with
  | nil => rfl
  | cons t ts ih =>
    cases h : oracle t with
    | success => simp [deadOfChunk, deadFor, h, List.filter_cons] at ih ⊢; exact ih
    | failure code =>
      by_cases hc : isDeadCode code = true <;>
        simp [deadOfChunk, deadFor, h, hc, List.filter_cons] at ih ⊢ <;> exact ih

theorem foldl_dispatchStep_sent_failed (oracle : String → SendResult) :
    ∀ (chunks : List (List String)) (acc : DispatchAcc),
      (chunks.foldl (dispatchStep oracle) acc).sent +
        (chunks.foldl (dispatchStep oracle) acc).failed =
      acc.sent + acc.failed + (chunks.map List.length).sum := by
  intro chunks
  induction chunks with
  | nil => intro acc; simp
  | cons part rest ih =>
    intro acc
    simp only [List.foldl_cons, List.map_cons, List.sum_cons]
    rw [ih]
    have hc : (multicastResponses oracle part).length = part.length := by
      simp [multicastResponses]
    have := successCount_add_failureCount (multicastResponses oracle part)
    simp [dispatchStep]
    omega

theorem foldl_dispatchStep_dead (oracle : String → SendResult) :
    ∀ (chunks : List (List String)) (acc : DispatchAcc),
      (chunks.foldl (dispatchStep oracle) acc).deadTokens =
      acc.deadTokens ++ (chunks.map (fun part => part.filter (deadFor oracle))).flatten := by
  intro chunks
  induction chunks with
  | nil => intro acc; simp
  | cons part rest ih =>
    intro acc
    simp only [List.foldl_cons, List.map_cons, List.flatten_cons]
    rw [ih]
    simp [dispatchStep, multicastResponses, deadOfChunk_map]

theorem filter_flatten {α : Type} (p : α → Bool) (L : List (List α)) :
    L.flatten.filter p = (L.map (List.filter p)).flatten := by
  induction L with
  | nil => rfl
  | cons x xs ih => simp [List.filter_append, ih]

theorem dispatchChunks_sent_failed (oracle : String → SendResult) (tokens : List String) :
    (dispatchChunks oracle tokens).sent + (dispatchChunks oracle tokens).failed =
      tokens.length := by
  unfold dispatchChunks
  rw [foldl_dispatchStep_sent_failed]
  have hflat : (chunk tokens 500).flatten = tokens := chunk_flatten 500 (by norm_num) tokens
  have : ((chunk tokens 500).map List.length).sum = (chunk tokens 500).flatten.length := by
    rw [List.length_flatten]
  rw [this, hflat]
  simp

theorem dispatchChunks_dead (oracle : String → SendResult) (tokens : List String) :
    (dispatchChunks oracle tokens).deadTokens = tokens.filter (deadFor oracle) := by
  unfold dispatchChunks
  rw [foldl_dispatchStep_dead]
  have hflat : (chunk tokens 500).flatten = tokens := chunk_flatten 500 (by norm_num) tokens
  rw [← filter_flatten, hflat]
  simp

/- ------------------------------------------------------------------ -/
/- Helper lemmas about key uniqueness.                                 -/
/- ------------------------------------------------------------------ -/

theorem keysOk_filter {α : Type} (dk tk : α → String) (rows : List α) (q : α → Bool)
    (h : keysOk dk tk rows) : keysOk dk tk (rows.filter q) :=
  h.sublist (List.filter_sublist rows)

theorem keysOk_map_keys_eq {α : Type} (dk tk : α → String) (rows : List α) (g : α → α)
    (hd : ∀ a, dk (g a) = dk a) (ht : ∀ a, tk (g a) = tk a)
    (h : keysOk dk tk rows) : keysOk dk tk (rows.map g) := by
  rw [keysOk, List.pairwise_map]
  apply h.imp
  intro a b hab
  rw [hd, hd, ht, ht]
  exact hab

theorem keysOk_map_guarded {α : Type} (dk tk : α → String) (rows : List α) (g : α → α)
    (dev tok : String)
    (hd : ∀ a, dk (g a) = dk a)
    (ht : ∀ a, tk (g a) = if dk a = dev then tok else tk a)
    (hguard : ∀ a ∈ rows, tk a = tok → dk a = dev)
    (h : keysOk dk tk rows) : keysOk dk tk (rows.map g) := by
  rw [keysOk, List.pairwise_map]
  apply List.Pairwise.imp_of_mem _ h
  intro a b ha hb hab
  refine ⟨by rw [hd, hd]; exact hab.1, ?_⟩
  rw [ht, ht]
  by_cases hda : dk a = dev <;> by_cases hdb : dk b = dev
  · exact absurd (hda.trans hdb.symm) hab.1
  · simp only [hda, if_pos, hdb, if_neg, if_true, if_false]
    intro heq
    exact hdb (hguard b hb heq.symm)
  · simp only [hda, hdb, if_neg, if_pos, if_true, if_false]
    intro heq
    exact hda (hguard a ha heq)
  · simp only [hda, hdb, if_neg, if_false]
    exact hab.2

theorem keysOk_append_one {α : Type} (dk tk : α → String) (rows : List α) (n : α)
    (h : keysOk dk tk rows)
    (hnew : ∀ a ∈ rows, dk a ≠ dk n ∧ tk a ≠ tk n) :
    keysOk dk tk (rows ++ [n]) := by
  rw [keysOk, List.pairwise_append]
  refine ⟨h, List.pairwise_singleton _ _, ?_⟩
  intro a ha b hb
  rw [List.mem_singleton] at hb
  subst hb
  exact hnew a ha

/- ------------------------------------------------------------------ -/
/- Richer-variant registry operation lemmas.                           -/
/- ------------------------------------------------------------------ -/

theorem deleteOtherHolders_guard (rows : List Row) (tok dev : String) :
    ∀ r ∈ deleteOtherHolders rows tok dev, r.fcmToken = tok → r.deviceId = dev := by
  intro r hr htok
  rw [deleteOtherHolders, List.mem_filter] at hr
  have := hr.2
  simp [htok] at this
  exact this

theorem deleteOtherHolders_keysOk (rows : List Row) (tok dev : String)
    (h : registryInv rows) : registryInv (deleteOtherHolders rows tok dev) :=
  keysOk_filter _ _ rows _ h

theorem deleteOtherHolders_sublist (rows : List Row) (tok dev : String) :
    List.Sublist (deleteOtherHolders rows tok dev) rows :=
  List.filter_sublist rows

theorem deleteOtherHolders_keeps_device (rows : List Row) (tok dev : String)
    (r : Row) (hr : r ∈ rows) (hdev : r.deviceId = dev) :
    r ∈ deleteOtherHolders rows tok dev := by
  rw [deleteOtherHolders, List.mem_filter]
  refine ⟨hr, ?_⟩
  simp [hdev]

theorem markInactive_keysOk (rows : List Row) (dev : String)
    (h : registryInv rows) : registryInv (markInactive rows dev) := by
  apply keysOk_map_keys_eq _ _ rows _ _ _ h
  · intro a
    by_cases hd : a.deviceId = dev <;> simp [hd]
  · intro a
    by_cases hd : a.deviceId = dev <;> simp [hd]

theorem markInactive_guard (rows : List Row) (dev tok : String)
    (h : ∀ r ∈ rows, r.fcmToken = tok → r.deviceId = dev) :
    ∀ r ∈ markInactive rows dev, r.fcmToken = tok → r.deviceId = dev := by
  intro r hr htok
  rw [markInactive, List.mem_map] at hr
  obtain ⟨r0, hr0, heq⟩ := hr
  by_cases hd : r0.deviceId = dev
  · rw [← heq]
    simp [hd]
  · have hkeep : r = r0 := by rw [← heq]; simp [hd]
    rw [hkeep] at htok ⊢
    exact h r0 hr0 htok

theorem markInactive_keeps_device (rows : List Row) (dev : String)
    (hex : ∃ r ∈ rows, r.deviceId = dev) :
    ∃ r ∈ markInactive rows dev, r.deviceId = dev := by
  obtain ⟨r, hr, hdev⟩ := hex
  refine ⟨if r.deviceId = dev then { r with active := false } else r, ?_, ?_⟩
  · rw [markInactive, List.mem_map]
    exact ⟨r, hr, rfl⟩
  · by_cases hd : r.deviceId = dev <;> simp [hd, hdev]

theorem markInactive_length (rows : List Row) (dev : String) :
    (markInactive rows dev).length = rows.length := by
  simp [markInactive]

theorem insertOnConflict_keysOk (rows : List Row) (inp : UpsertDeviceInput) (now : Nat)
    (h : registryInv rows)
    (hguard : ∀ r ∈ rows, r.fcmToken = inp.fcmToken → r.deviceId = inp.deviceId) :
    registryInv (insertOnConflict rows inp now) := by
  rw [insertOnConflict]
  by_cases hany : rows.any (fun r => decide (r.deviceId = inp.deviceId)) = true
  · rw [if_pos hany]
    apply keysOk_map_guarded _ _ rows _ inp.deviceId inp.fcmToken _ _ hguard h
    · intro a
      by_cases hd : a.deviceId = inp.deviceId <;> simp [hd]
    · intro a
      by_cases hd : a.deviceId = inp.deviceId <;> simp [hd]
  · rw [if_neg hany]
    apply keysOk_append_one _ _ rows _ h
    intro a ha
    rw [List.any_eq_true] at hany
    push_neg at hany
    have hda : ¬a.deviceId = inp.deviceId := by
      have := hany a ha
      simpa using this
    refine ⟨by simpa using hda, ?_⟩
    simp only []
    intro htok
    exact hda (hguard a ha htok)

theorem insertOnConflict_token_unique (rows : List Row) (inp : UpsertDeviceInput) (now : Nat)
    (hguard : ∀ r ∈ rows, r.fcmToken = inp.fcmToken → r.deviceId = inp.deviceId) :
    ∀ r ∈ insertOnConflict rows inp now, r.fcmToken = inp.fcmToken →
      r.deviceId = inp.deviceId := by
  intro r hr htok
  rw [insertOnConflict] at hr
  by_cases hany : rows.any (fun r => decide (r.deviceId = inp.deviceId)) = true
  · rw [if_pos hany, List.mem_map] at hr
    obtain ⟨r0, hr0, heq⟩ := hr
    by_cases hd : r0.deviceId = inp.deviceId
    · rw [← heq]
      simp [hd]
    · have hkeep : r = r0 := by rw [← heq]; simp [hd]
      rw [hkeep] at htok ⊢
      exact hguard r0 hr0 htok
  · rw [if_neg hany, List.mem_append] at hr
    rcases hr with hr | hr
    · exact hguard r hr htok
    · rw [List.mem_singleton] at hr
      rw [hr]

theorem insertOnConflict_mem_updated (rows : List Row) (inp : UpsertDeviceInput) (now : Nat) :
    ∃ r ∈ insertOnConflict rows inp now,
      r.deviceId = inp.deviceId ∧ r.fcmToken = inp.fcmToken ∧ r.active = true := by
  rw [insertOnConflict]
  by_cases hany : rows.any (fun r => decide (r.deviceId = inp.deviceId)) = true
  · rw [if_pos hany]
    rw [List.any_eq_true] at hany
    obtain ⟨r0, hr0, hd⟩ := hany
    have hd : r0.deviceId = inp.deviceId := by simpa using hd
    refine ⟨_, List.mem_map_of_mem _ hr0, ?_⟩
    simp [hd]
  · rw [if_neg hany]
    refine ⟨_, List.mem_append_right _ (List.mem_singleton_self _), ?_⟩
    simp

theorem insertOnConflict_length_of_exists (rows : List Row) (inp : UpsertDeviceInput)
    (now : Nat) (hex : ∃ r ∈ rows, r.deviceId = inp.deviceId) :
    (insertOnConflict rows inp now).length = rows.length := by
  rw [insertOnConflict]
  have hany : rows.any (fun r => decide (r.deviceId = inp.deviceId)) = true := by
    rw [List.any_eq_true]
    obtain ⟨r, hr, hd⟩ := hex
    exact ⟨r, hr, by simpa using hd⟩
  rw [if_pos hany]
  simp

theorem upsertDevice_registryInv (rows : List Row) (inp : UpsertDeviceInput) (now : Nat)
    (h : registryInv rows) : registryInv (upsertDevice rows inp now) := by
  rw [upsertDevice]
  apply insertOnConflict_keysOk
  · exact markInactive_keysOk _ _ (deleteOtherHolders_keysOk rows _ _ h)
  · exact markInactive_guard _ _ _ (deleteOtherHolders_guard rows _ _)

theorem upsertDevice_token_unique (rows : List Row) (inp : UpsertDeviceInput) (now : Nat) :
    ∀ r ∈ upsertDevice rows inp now, r.fcmToken = inp.fcmToken →
      r.deviceId = inp.deviceId := by
  rw [upsertDevice]
  apply insertOnConflict_token_unique
  exact markInactive_guard _ _ _ (deleteOtherHolders_guard rows _ _)

theorem upsertDevice_mem_updated (rows : List Row) (inp : UpsertDeviceInput) (now : Nat) :
    ∃ r ∈ upsertDevice rows inp now,
      r.deviceId = inp.deviceId ∧ r.fcmToken = inp.fcmToken ∧ r.active = true :=
  insertOnConflict_mem_updated _ inp now

theorem upsertDevice_length_le (rows : List Row) (inp : UpsertDeviceInput) (now : Nat)
    (hex : ∃ r ∈ rows, r.deviceId = inp.deviceId) :
    (upsertDevice rows inp now).length ≤ rows.length := by
  rw [upsertDevice]
  have hex2 : ∃ r ∈ markInactive (deleteOtherHolders rows inp.fcmToken inp.deviceId)
      inp.deviceId, r.deviceId = inp.deviceId := by
    apply markInactive_keeps_device
    obtain ⟨r, hr, hd⟩ := hex
    exact ⟨r, deleteOtherHolders_keeps_device rows _ _ r hr hd, hd⟩
  rw [insertOnConflict_length_of_exists _ _ _ hex2, markInactive_length]
  exact (deleteOtherHolders_sublist rows _ _).length_le

/- ------------------------------------------------------------------ -/
/- Base-variant registry operation lemmas.                             -/
/- ------------------------------------------------------------------ -/

theorem baseDeleteOtherHolders_guard (rows : List BaseRow) (tok dev : String) :
    ∀ r ∈ Base.deleteOtherHolders rows tok dev, r.fcmToken = tok → r.deviceId = dev := by
  intro r hr htok
  rw [Base.deleteOtherHolders, List.mem_filter] at hr
  have := hr.2
  simp [htok] at this
  exact this

theorem baseDeleteOtherHolders_keysOk (rows : List BaseRow) (tok dev : String)
    (h : baseRegistryInv rows) : baseRegistryInv (Base.deleteOtherHolders rows tok dev) :=
  keysOk_filter _ _ rows _ h

theorem baseInsertOnConflict_keysOk (rows : List BaseRow) (inp : BaseUpsertInput) (now : Nat)
    (h : baseRegistryInv rows)
    (hguard : ∀ r ∈ rows, r.fcmToken = inp.fcmToken → r.deviceId = inp.deviceId) :
    baseRegistryInv (Base.insertOnConflict rows inp now) := by
  rw [Base.insertOnConflict]
  by_cases hany : rows.any (fun r => decide (r.deviceId = inp.deviceId)) = true
  · rw [if_pos hany]
    apply keysOk_map_guarded _ _ rows _ inp.deviceId inp.fcmToken _ _ hguard h
    · intro a
      by_cases hd : a.deviceId = inp.deviceId <;> simp [hd]
    · intro a
      by_cases hd : a.deviceId = inp.deviceId <;> simp [hd]
  · rw [if_neg hany]
    apply keysOk_append_one _ _ rows _ h
    intro a ha
    rw [List.any_eq_true] at hany
    push_neg at hany
    have hda : ¬a.deviceId = inp.deviceId := by
      have := hany a ha
      simpa using this
    refine ⟨by simpa using hda, ?_⟩
    simp only []
    intro htok
    exact hda (hguard a ha htok)

theorem baseInsertOnConflict_token_owner (rows : List BaseRow) (inp : BaseUpsertInput)
    (now : Nat)
    (hguard : ∀ r ∈ rows, r.fcmToken = inp.fcmToken → r.deviceId = inp.deviceId) :
    ∀ r ∈ Base.insertOnConflict rows inp now, r.fcmToken = inp.fcmToken →
      r.userId = jsOrNull inp.userId := by
  intro r hr htok
  rw [Base.insertOnConflict] at hr
  by_cases hany : rows.any (fun r => decide (r.deviceId = inp.deviceId)) = true
  · rw [if_pos hany, List.mem_map] at hr
    obtain ⟨r0, hr0, heq⟩ := hr
    by_cases hd : r0.deviceId = inp.deviceId
    · rw [← heq]
      simp [hd]
    · have hkeep : r = r0 := by rw [← heq]; simp [hd]
      rw [hkeep] at htok ⊢
      exact absurd (hguard r0 hr0 htok) hd
  · rw [if_neg hany, List.mem_append] at hr
    rcases hr with hr | hr
    · rw [List.any_eq_true] at hany
      push_neg at hany
      have := hany r hr
      exact absurd (hguard r hr htok) (by simpa using this)
    · rw [List.mem_singleton] at hr
      rw [hr]

theorem baseUpsertDevice_registryInv (rows : List BaseRow) (inp : BaseUpsertInput)
    (now : Nat) (h : baseRegistryInv rows) :
    baseRegistryInv (Base.upsertDevice rows inp now) := by
  rw [Base.upsertDevice]
  apply baseInsertOnConflict_keysOk
  · exact baseDeleteOtherHolders_keysOk rows _ _ h
  · exact baseDeleteOtherHolders_guard rows _ _

theorem baseUpsertDevice_token_owner (rows : List BaseRow) (inp : BaseUpsertInput)
    (now : Nat) :
    ∀ r ∈ Base.upsertDevice rows inp now, r.fcmToken = inp.fcmToken →
      r.userId = jsOrNull inp.userId := by
  rw [Base.upsertDevice]
  apply baseInsertOnConflict_token_owner
  exact baseDeleteOtherHolders_guard rows _ _

theorem baseInsertOnConflict_token_unique (rows : List BaseRow) (inp : BaseUpsertInput)
    (now : Nat)
    (hguard : ∀ r ∈ rows, r.fcmToken = inp.fcmToken → r.deviceId = inp.deviceId) :
    ∀ r ∈ Base.insertOnConflict rows inp now, r.fcmToken = inp.fcmToken →
      r.deviceId = inp.deviceId := by
  intro r hr htok
  rw [Base.insertOnConflict] at hr
  by_cases hany : rows.any (fun r => decide (r.deviceId = inp.deviceId)) = true
  · rw [if_pos hany, List.mem_map] at hr
    obtain ⟨r0, hr0, heq⟩ := hr
    by_cases hd : r0.deviceId = inp.deviceId
    · rw [← heq]
      simp [hd]
    · have hkeep : r = r0 := by rw [← heq]; simp [hd]
      rw [hkeep] at htok ⊢
      exact hguard r0 hr0 htok
  · rw [if_neg hany, List.mem_append] at hr
    rcases hr with hr | hr
    · exact hguard r hr htok
    · rw [List.mem_singleton] at hr
      rw [hr]

theorem baseUpsertDevice_token_unique (rows : List BaseRow) (inp : BaseUpsertInput)
    (now : Nat) :
    ∀ r ∈ Base.upsertDevice rows inp now, r.fcmToken = inp.fcmToken →
      r.deviceId = inp.deviceId := by
  rw [Base.upsertDevice]
  apply baseInsertOnConflict_token_unique
  exact baseDeleteOtherHolders_guard rows _ _

/- ------------------------------------------------------------------ -/
/- Dead-token deletion lemmas.                                         -/
/- ------------------------------------------------------------------ -/

theorem mem_foldl_deleteToken (ds : List String) :
    ∀ (rows : List Row) (r : Row), r ∈ ds.foldl deleteToken rows →
      r ∈ rows ∧ ∀ t ∈ ds, r.fcmToken ≠ t := by
  induction ds with
  | nil =>
    intro rows r hr
    exact ⟨hr, by simp⟩
  | cons d rest ih =>
    intro rows r hr
    rw [List.foldl_cons] at hr
    obtain ⟨hmem, hrest⟩ := ih (deleteToken rows d) r hr
    rw [deleteToken, List.mem_filter] at hmem
    refine ⟨hmem.1, ?_⟩
    intro t ht
    rcases List.mem_cons.mp ht with h | h
    · rw [h]
      have := hmem.2
      simpa using this
    · exact hrest t h

theorem foldl_deleteToken_subset (ds : List String) :
    ∀ (rows : List Row) (r : Row), r ∈ ds.foldl deleteToken rows → r ∈ rows :=
  fun rows r hr => (mem_foldl_deleteToken ds rows r hr).1

theorem getTokensByUserId_sound (rows : List Row) (u : Int) (t : String)
    (h : t ∈ getTokensByUserId rows u) :
    ∃ r ∈ rows, r.fcmToken = t ∧ r.userId = some u ∧ r.active = true := by
  rw [getTokensByUserId, List.mem_map] at h
  obtain ⟨r, hr, heq⟩ := h
  rw [List.mem_filter] at hr
  have hcond := hr.2
  simp at hcond
  exact ⟨r, hr.1, heq, hcond.1, hcond.2⟩

theorem baseGetTokensByUserId_sound (rows : List BaseRow) (u : String) (t : String)
    (h : t ∈ Base.getTokensByUserId rows u) :
    ∃ r ∈ rows, r.fcmToken = t ∧ r.userId = some u := by
  rw [Base.getTokensByUserId, List.mem_map] at h
  obtain ⟨r, hr, heq⟩ := h
  rw [List.mem_filter] at hr
  have hcond := hr.2
  simp at hcond
  exact ⟨r, hr.1, heq, hcond⟩

/- ------------------------------------------------------------------ -/
/- Broadcast paging lemmas.                                            -/
/- ------------------------------------------------------------------ -/

theorem flatten_pages {α : Type} (p : Nat) :
    ∀ (m : Nat) (L : List α), L.length ≤ m * p →
      ((List.range m).map (fun i => (L.drop (i * p)).take p)).flatten = L := by
  intro m
  induction m with
  | zero =>
    intro L h
    simp at h
    rw [h]
    rfl
  | succ m ih =>
    intro L h
    rw [List.range_succ_eq_map]
    simp only [List.map_cons, List.map_map, List.flatten_cons, Nat.zero_mul, List.drop_zero]
    have hmap : (List.range m).map ((fun i => (L.drop (i * p)).take p) ∘ Nat.succ) =
        (List.range m).map (fun i => ((L.drop p).drop (i * p)).take p) := by
      apply List.map_congr_left
      intro i _
      simp only [Function.comp]
      rw [List.drop_drop]
      have harith : i.succ * p = p + i * p := by rw [Nat.succ_mul, Nat.add_comm]
      rw [harith]
    have hlen : (L.drop p).length ≤ m * p := by
      have hsucc : (m + 1) * p = m * p + p := by rw [Nat.succ_mul]
      rw [List.length_drop]
      omega
    rw [hmap, ih (L.drop p) hlen]
    exact List.take_append_drop p L

theorem ceil_mul_ge (n : Nat) : n ≤ ((n + 19) / 20) * 20 := by
  have h1 := Nat.div_add_mod (n + 19) 20
  have h2 : (n + 19) % 20 < 20 := Nat.mod_lt _ (by norm_num)
  omega

theorem activeTokenList_length (rows : List Row) :
    (activeTokenList rows).length = getActiveTokensCount rows := by
  rw [activeTokenList, List.length_map, sortedActive, getActiveTokensCount]
  exact (List.perm_insertionSort _ _).length_eq

theorem activeTokenList_perm (rows : List Row) :
    List.Perm (activeTokenList rows) ((activeRows rows).map (fun r => r.fcmToken)) :=
  (List.perm_insertionSort _ _).map _

theorem pushAllPages_length (rows : List Row) :
    (pushAllPages rows).length = jsCeilDiv (getActiveTokensCount rows) 20 := by
  rw [pushAllPages]
  by_cases h : getActiveTokensCount rows = 0
  · simp [h, jsCeilDiv]
  · simp [h]

theorem pushAllPages_flatten (rows : List Row) :
    (pushAllPages rows).flatten = activeTokenList rows := by
  rw [pushAllPages]
  by_cases h : getActiveTokensCount rows = 0
  · rw [if_pos h]
    have : (activeTokenList rows).length = 0 := by rw [activeTokenList_length, h]
    rw [List.eq_nil_of_length_eq_zero this]
    rfl
  · rw [if_neg h]
    simp only [getAllActiveTokensPage]
    apply flatten_pages 20
    rw [activeTokenList_length, jsCeilDiv]
    exact ceil_mul_ge _

/- ------------------------------------------------------------------ -/
/- Handler unfolding lemmas.                                           -/
/- ------------------------------------------------------------------ -/

theorem pushUserHandler_dispatch_registry (oracle : String → SendResult) (rows : List Row)
    (b : PushUserBody)
    (h1 : falsyNum b.userId = false) (h2 : falsyStr b.title = false)
    (h3 : falsyStr b.body = false)
    (hne : getTokensByUserId rows (b.userId.getD 0) ≠ []) :
    (pushUserHandler oracle rows b).registry =
      (dispatchChunks oracle (getTokensByUserId rows (b.userId.getD 0))).deadTokens.foldl
        deleteToken rows := by
  rw [pushUserHandler]
  simp only [h1, h2, h3, Bool.or_self, Bool.false_or, if_false, Bool.false_eq_true]
  rw [if_neg (by simp [List.isEmpty_iff, hne])]

theorem kafkaHandler_dispatch_registry (oracle : String → SendResult) (rows : List Row)
    (d : KafkaData) (n : Int)
    (hu : kafkaUserId d.userId = some n) (hn : n ≠ 0)
    (ht : d.title.getD "" ≠ "") (hb : d.body.getD "" ≠ "")
    (hne : getTokensByUserId rows n ≠ [])
    (hdead : (dispatchChunks oracle (getTokensByUserId rows n)).deadTokens ≠ []) :
    (handleSendUserNotification oracle rows d).registry =
      (dispatchChunks oracle (getTokensByUserId rows n)).deadTokens.foldl
        deleteToken rows := by
  rw [handleSendUserNotification, hu]
  simp only [hn, if_neg, if_false]
  rw [if_neg (by simp [ht, hb]), if_neg (by simp [List.isEmpty_iff, hne]),
    if_neg (by simp [List.length_eq_zero, hdead])]

/- ------------------------------------------------------------------ -/
/- Claim theorems.                                                     -/
/- ------------------------------------------------------------------ -/

/-- C1: on the user-targeted send path every token list is partitioned into
contiguous chunks of at most 500 tokens whose concatenation is the original
list; a 1200-token list yields exactly the batch sizes 500, 500, 200; and
when no provider call raises, the accumulated `sent + failed` equals the
token count. -/
theorem userDispatchChunkingCorrect (tokens : List String) (oracle : String → SendResult) :
    (∀ c ∈ chunk tokens 500, c.length ≤ 500) ∧
    (chunk tokens 500).flatten = tokens ∧
    (tokens.length = 1200 → (chunk tokens 500).map List.length = [500, 500, 200]) ∧
    (dispatchChunks oracle tokens).sent + (dispatchChunks oracle tokens).failed =
      tokens.length := by
  refine ⟨?_, ?_, ?_, ?_⟩
  · intro c hc
    exact chunk_mem_length 500 tokens c hc
  · exact chunk_flatten 500 (by norm_num) tokens
  · intro h
    exact chunk_sizes_1200 tokens h
  · exact dispatchChunks_sent_failed oracle tokens

set_option maxRecDepth 100000 in
/-- Witness for C1 at a concrete 1200-token list with an all-success
provider. -/
theorem userDispatchChunkingCorrect_witness :
    (chunk (List.replicate 1200 "t") 500).map List.length = [500, 500, 200] ∧
    (dispatchChunks (fun _ => SendResult.success) (List.replicate 1200 "t")).sent +
      (dispatchChunks (fun _ => SendResult.success) (List.replicate 1200 "t")).failed =
        1200 := by
  refine ⟨(userDispatchChunkingCorrect (List.replicate 1200 "t")
    (fun _ => SendResult.success)).2.2.1 (by simp), ?_⟩
  have h := (userDispatchChunkingCorrect (List.replicate 1200 "t")
    (fun _ => SendResult.success)).2.2.2
  simpa using h

/-- C8: in the richer schema every token returned by `getTokensByUserId`
belongs to a row of the queried user that is active; no inactive device's
token is ever returned. -/
theorem tokensForUserActiveOnly (rows : List Row) (u : Int) (t : String)
    (h : t ∈ getTokensByUserId rows u) :
    ∃ r ∈ rows, r.fcmToken = t ∧ r.active = true ∧ r.userId = some u := by
  obtain ⟨r, hr, htok, huser, hact⟩ := getTokensByUserId_sound rows u t h
  exact ⟨r, hr, htok, hact, huser⟩

/-- Witness for C8 at a concrete registry and user. -/
theorem tokensForUserActiveOnly_witness :
    "T" ∈ getTokensByUserId cexBroadcastRegistry 1 ∧
    ∃ r ∈ cexBroadcastRegistry, r.fcmToken = "T" ∧ r.active = true ∧ r.userId = some 1 :=
  ⟨by decide, tokensForUserActiveOnly cexBroadcastRegistry 1 "T" (by decide)⟩

/-- C9: `deleteDeviceByIdentifiers` on a tuple matching no row reports zero
affected rows and leaves the registry exactly as it was. -/
theorem deleteByIdentifiersNoMatch (rows : List Row) (dev tok : String) (u g : Int)
    (h : ∀ r ∈ rows, matchesIdentifiers dev tok u g r = false) :
    (deleteDeviceByIdentifiers rows dev tok u g).2 = 0 ∧
    (deleteDeviceByIdentifiers rows dev tok u g).1 = rows := by
  constructor
  · have hnil : rows.filter (matchesIdentifiers dev tok u g) = [] := by
      rw [List.filter_eq_nil_iff]
      intro r hr
      simp [h r hr]
    simp [deleteDeviceByIdentifiers, hnil]
  · have : rows.filter (fun r => !matchesIdentifiers dev tok u g r) = rows := by
      rw [List.filter_eq_self]
      intro r hr
      simp [h r hr]
    simpa [deleteDeviceByIdentifiers] using this

/-- Witness for C9 at a concrete registry and a non-matching tuple. -/
theorem deleteByIdentifiersNoMatch_witness :
    (deleteDeviceByIdentifiers cexBroadcastRegistry "x" "y" 0 0).2 = 0 ∧
    (deleteDeviceByIdentifiers cexBroadcastRegistry "x" "y" 0 0).1 = cexBroadcastRegistry :=
  deleteByIdentifiersNoMatch cexBroadcastRegistry "x" "y" 0 0 (by decide)

/-- C10: a valid `/push/user` request resolving to zero tokens returns
`{ok:true, sent:0}` with an info field and without the `failed` and
`removedDead` fields, makes no provider call, and leaves the registry
untouched, in both server variants. -/
theorem pushUserNoTokensShortCircuit :
    (∀ (oracle : String → SendResult) (rows : List Row) (b : PushUserBody),
      falsyNum b.userId = false → falsyStr b.title = false → falsyStr b.body = false →
      getTokensByUserId rows (b.userId.getD 0) = [] →
      pushUserHandler oracle rows b =
        { resp := { status := 200, ok := true, sent := some 0, failed := none,
                    removedDead := none, info := some "No tokens for user", message := none },
          registry := rows, providerCalls := 0 }) ∧
    (∀ (oracle : String → SendResult) (rows : List BaseRow) (b : Base.PushUserBodyB),
      falsyStr b.userId = false → falsyStr b.title = false → falsyStr b.body = false →
      Base.getTokensByUserId rows (b.userId.getD "") = [] →
      Base.pushUserHandler oracle rows b =
        { resp := { status := 200, ok := true, sent := some 0, failed := none,
                    removedDead := none, info := some "No tokens for user", message := none },
          registry := rows, providerCalls := 0 }) := by
  constructor
  · intro oracle rows b h1 h2 h3 htok
    rw [pushUserHandler]
    simp [h1, h2, h3, htok]
  · intro oracle rows b h1 h2 h3 htok
    rw [Base.pushUserHandler]
    simp [h1, h2, h3, htok]

/-- Witness for C10 at an empty registry in both variants. -/
theorem pushUserNoTokensShortCircuit_witness :
    pushUserHandler (fun _ => SendResult.success) [] witnessPushUserBody =
      { resp := { status := 200, ok := true, sent := some 0, failed := none,
                  removedDead := none, info := some "No tokens for user", message := none },
        registry := [], providerCalls := 0 } ∧
    Base.pushUserHandler (fun _ => SendResult.success) [] witnessPushUserBodyB =
      { resp := { status := 200, ok := true, sent := some 0, failed := none,
                  removedDead := none, info := some "No tokens for user", message := none },
        registry := [], providerCalls := 0 } :=
  ⟨pushUserNoTokensShortCircuit.1 _ [] witnessPushUserBody (by decide) (by decide) (by decide)
     (by decide),
   pushUserNoTokensShortCircuit.2 _ [] witnessPushUserBodyB (by decide) (by decide) (by decide)
     (by decide)⟩

/-- C5: both upsert variants run their steps inside one transaction: if any
step raises, the committed registry is exactly the state before the call and
the error propagates; if no step raises, the committed state is the full
upsert result. -/
theorem upsertTransactionAtomicity :
    (∀ (fail : TxStep → Bool) (rows : List Row) (inp : UpsertDeviceInput) (now : Nat),
      ((∃ s, fail s = true) →
        upsertDeviceTx fail rows inp now = { db := rows, errored := true }) ∧
      ((∀ s, fail s = false) →
        upsertDeviceTx fail rows inp now =
          { db := upsertDevice rows inp now, errored := false })) ∧
    (∀ (fail : BaseTxStep → Bool) (rows : List BaseRow) (inp : BaseUpsertInput) (now : Nat),
      ((∃ s, fail s = true) →
        baseUpsertDeviceTx fail rows inp now = { db := rows, errored := true }) ∧
      ((∀ s, fail s = false) →
        baseUpsertDeviceTx fail rows inp now =
          { db := Base.upsertDevice rows inp now, errored := false })) := by
  constructor
  · intro fail rows inp now
    constructor
    · rintro ⟨s, hs⟩
      cases h1 : fail .delOthers <;> cases h2 : fail .markOld <;> cases h3 : fail .insertDev <;>
        simp [upsertDeviceTx, h1, h2, h3] <;> cases s <;> simp_all
    · intro hall
      simp [upsertDeviceTx, hall, upsertDevice]
  · intro fail rows inp now
    constructor
    · rintro ⟨s, hs⟩
      cases h1 : fail .delOthers <;> cases h2 : fail .insertDev <;>
        simp [baseUpsertDeviceTx, h1, h2] <;> cases s <;> simp_all
    · intro hall
      simp [baseUpsertDeviceTx, hall, Base.upsertDevice]

/-- Witness for C5: a failure at the mark-inactive step (richer) and at the
insert step (base) leaves each registry unchanged and reports the error. -/
theorem upsertTransactionAtomicity_witness :
    upsertDeviceTx (fun s => decide (s = TxStep.markOld)) witnessRegistry witnessInput 0 =
      { db := witnessRegistry, errored := true } ∧
    baseUpsertDeviceTx (fun s => decide (s = BaseTxStep.insertDev)) witnessBaseRegistry
        witnessBaseInput 0 =
      { db := witnessBaseRegistry, errored := true } :=
  ⟨(upsertTransactionAtomicity.1 _ witnessRegistry witnessInput 0).1
     ⟨TxStep.markOld, by decide⟩,
   (upsertTransactionAtomicity.2 _ witnessBaseRegistry witnessBaseInput 0).1
     ⟨BaseTxStep.insertDev, by decide⟩⟩

/-- C4: for a static registry the broadcast handler fetches exactly
`ceil(N/20)` pages, and their concatenation is precisely the ordered active
token list, which covers the `N` active tokens exactly once (it is a
permutation of the active rows' tokens). -/
theorem broadcastPagingCoverage (rows : List Row) :
    (pushAllPages rows).length = jsCeilDiv (getActiveTokensCount rows) 20 ∧
    (pushAllPages rows).flatten = activeTokenList rows ∧
    (activeTokenList rows).length = getActiveTokensCount rows ∧
    List.Perm (activeTokenList rows) ((activeRows rows).map (fun r => r.fcmToken)) ∧
    (∀ (oracle : String → SendResult) (title body : Option String),
      falsyStr title = false → falsyStr body = false →
      (pushAllHandler oracle rows title body).pagesFetched = pushAllPages rows) := by
  refine ⟨pushAllPages_length rows, pushAllPages_flatten rows, activeTokenList_length rows,
    activeTokenList_perm rows, ?_⟩
  intro oracle title body h1 h2
  rw [pushAllHandler]
  simp only [h1, h2, Bool.or_self, Bool.false_eq_true, if_false]
  by_cases h : getActiveTokensCount rows = 0
  · simp [h, pushAllPages]
  · simp [h]

/-- Witness for C4 at a concrete one-device registry. -/
theorem broadcastPagingCoverage_witness :
    (pushAllHandler (fun _ => SendResult.success) cexBroadcastRegistry (some "x")
      (some "y")).pagesFetched = pushAllPages cexBroadcastRegistry :=
  (broadcastPagingCoverage cexBroadcastRegistry).2.2.2.2 _ (some "x") (some "y")
    (by decide) (by decide)

/-- C6 counterexample: a `SendUserNotification` event with the negative
`userId = -5` is not rejected: the handler looks up the user's tokens and
dispatches to them (here collecting the dead token `N`), contradicting the
claim that a negative `userId` aborts processing with no lookup and no
dispatch attempt. -/
theorem kafkaNegativeUserIdCex :
    (handleSendUserNotification cexDeadOracle cexNegativeUserRegistry
        cexNegativeUserData).outcome = KafkaOutcome.dispatched ["N"] ∧
    (handleSendUserNotification cexDeadOracle cexNegativeUserRegistry
        cexNegativeUserData).outcome ≠ KafkaOutcome.invalidUserId := by
  decide

/-- C6 as amended: the event-bus handler aborts with no lookup and no
dispatch exactly when `userId` is missing, non-numeric, or parses to zero
(negative values pass validation); with a valid `userId`, a missing `title`
or `body` aborts with no dispatch. -/
theorem kafkaUserIdValidation (oracle : String → SendResult) (rows : List Row)
    (d : KafkaData) :
    ((kafkaUserId d.userId = none ∨ kafkaUserId d.userId = some 0) →
      handleSendUserNotification oracle rows d = ⟨.invalidUserId, rows⟩) ∧
    (∀ n : Int, kafkaUserId d.userId = some n → n ≠ 0 →
      (d.title.getD "" = "" ∨ d.body.getD "" = "") →
      handleSendUserNotification oracle rows d = ⟨.missingTitleBody, rows⟩) ∧
    ((handleSendUserNotification oracle rows d).outcome = .invalidUserId →
      (kafkaUserId d.userId = none ∨ kafkaUserId d.userId = some 0)) := by
  refine ⟨?_, ?_, ?_⟩
  · rintro (h | h) <;> rw [handleSendUserNotification, h] <;> simp
  · intro n hu hn htb
    rw [handleSendUserNotification, hu]
    rcases htb with h | h <;> simp [hn, h]
  · intro hout
    by_cases hnone : kafkaUserId d.userId = none
    · exact Or.inl hnone
    · obtain ⟨n, hn⟩ := Option.ne_none_iff_exists.mp hnone
      right
      rw [← hn]
      by_cases hz : n = 0
      · rw [hz]
      · exfalso
        rw [handleSendUserNotification, ← hn] at hout
        simp only [hz, if_neg, if_false] at hout
        by_cases htb : d.title.getD "" = "" || d.body.getD "" = ""
        · rw [if_pos htb] at hout
          simp at hout
        · rw [if_neg htb] at hout
          by_cases hemp : (getTokensByUserId rows n).isEmpty
          · rw [if_pos hemp] at hout
            simp at hout
          · rw [if_neg hemp] at hout
            simp at hout

/-- Witness for C6 as amended: a missing `userId` coerces to 0 and aborts,
and with a valid `userId` a missing body aborts. -/
theorem kafkaUserIdValidation_witness :
    handleSendUserNotification cexDeadOracle [] witnessKafkaMissing =
      ⟨.invalidUserId, []⟩ ∧
    handleSendUserNotification cexDeadOracle []
        { userId := .num 7, title := some "t", body := none } =
      ⟨.missingTitleBody, []⟩ :=
  ⟨(kafkaUserIdValidation cexDeadOracle [] witnessKafkaMissing).1 (Or.inr (by decide)),
   (kafkaUserIdValidation cexDeadOracle []
       { userId := .num 7, title := some "t", body := none }).2.1 7 rfl (by decide)
     (Or.inr rfl)⟩

/-- C7 counterexample: the richer register handler rejects a request that
supplies `deviceId` and `fcmToken` but omits `userId` and `gameId` with a
400, contradicting the claim that only `deviceId` and `fcmToken` are
required on every register path. -/
theorem registerMissingUserIdCex :
    registerDevice [] cexRegisterBody 0 = RegisterResult.badRequest "userId are required" := by
  decide

/-- C7 as amended: in the base variant only `deviceId` and `fcmToken` are
required — a request omitting `userId` is accepted, stored with a null
owner, and its token is unreachable by any user lookup; in the richer
variant a missing `userId` or `gameId` is additionally rejected with 400. -/
theorem registerRequiredFields :
    (∀ (rows : List BaseRow) (b : RegisterBodyB) (now : Nat),
      falsyStr b.deviceId = false → falsyStr b.fcmToken = false → b.userId = none →
      Base.registerDevice rows b now =
        RegisterResultB.okResult
          (Base.upsertDevice rows
            ⟨b.deviceId.getD "", b.userId, b.fcmToken.getD "", b.platform, b.appVersion⟩ now)
          (b.deviceId.getD "") none (b.fcmToken.getD "") ∧
      (∀ u : String, (b.fcmToken.getD "") ∉
        Base.getTokensByUserId
          (Base.upsertDevice rows
            ⟨b.deviceId.getD "", b.userId, b.fcmToken.getD "", b.platform, b.appVersion⟩ now)
          u)) ∧
    (∀ (rows : List Row) (b : RegisterBodyR) (now : Nat) (dev tok : String),
      b.deviceId = some dev → b.fcmToken = some tok → b.userId = none →
      registerDevice rows b now = RegisterResult.badRequest "userId are required") ∧
    (∀ (rows : List Row) (b : RegisterBodyR) (now : Nat) (dev tok : String) (uid : Int),
      b.deviceId = some dev → b.fcmToken = some tok → b.userId = some uid → b.gameId = none →
      registerDevice rows b now = RegisterResult.badRequest "gameId are required") := by
  refine ⟨?_, ?_, ?_⟩
  · intro rows b now h1 h2 hu
    constructor
    · rw [Base.registerDevice]
      simp only [h1, h2, Bool.or_self, Bool.false_eq_true, if_false]
      rw [hu]
      rfl
    · intro u hmem
      obtain ⟨r, hr, htok, huser⟩ :=
        baseGetTokensByUserId_sound _ u (b.fcmToken.getD "") hmem
      have howner := baseUpsertDevice_token_owner rows
        ⟨b.deviceId.getD "", b.userId, b.fcmToken.getD "", b.platform, b.appVersion⟩
        now r hr htok
      rw [hu] at howner
      simp [jsOrNull] at howner
      rw [howner] at huser
      exact Option.noConfusion huser
  · intro rows b now dev tok hdev htok hu
    rw [registerDevice, hdev, htok, hu]
  · intro rows b now dev tok uid hdev htok hu hg
    rw [registerDevice, hdev, htok, hu, hg]

/-- Witness for C7 as amended: registering with no `userId` in the base
variant succeeds and the stored token resolves for no user. -/
theorem registerRequiredFields_witness :
    Base.registerDevice [] witnessBaseBody 0 =
      RegisterResultB.okResult
        (Base.upsertDevice [] ⟨"d1", none, "tk", none, none⟩ 0) "d1" none "tk" ∧
    "tk" ∉ Base.getTokensByUserId
      (Base.upsertDevice [] ⟨"d1", none, "tk", none, none⟩ 0) "7" := by
  have h := registerRequiredFields.1 [] witnessBaseBody 0 (by decide) (by decide) rfl
  exact ⟨h.1, h.2 "7"⟩

/-- C3: starting from a registry with unique device ids and unique tokens,
every registry operation in both schema variants preserves both uniqueness
keys; after an upsert the input token belongs only to the input device (the
old holder's binding is gone), and re-registering an existing device updates
in place (the row count does not grow and the device's row carries the new
token). -/
theorem registryUniquenessInvariant :
    (∀ (rows : List Row) (inp : UpsertDeviceInput) (now : Nat), registryInv rows →
      registryInv (upsertDevice rows inp now) ∧
      (∀ r ∈ upsertDevice rows inp now, r.fcmToken = inp.fcmToken →
        r.deviceId = inp.deviceId) ∧
      ((∃ r ∈ rows, r.deviceId = inp.deviceId) →
        (upsertDevice rows inp now).length ≤ rows.length) ∧
      (∃ r ∈ upsertDevice rows inp now,
        r.deviceId = inp.deviceId ∧ r.fcmToken = inp.fcmToken ∧ r.active = true)) ∧
    (∀ (rows : List BaseRow) (inp : BaseUpsertInput) (now : Nat), baseRegistryInv rows →
      baseRegistryInv (Base.upsertDevice rows inp now) ∧
      (∀ r ∈ Base.upsertDevice rows inp now, r.fcmToken = inp.fcmToken →
        r.deviceId = inp.deviceId)) ∧
    (∀ (rows : List Row) (tok : String), registryInv rows →
      registryInv (deleteToken rows tok)) ∧
    (∀ (rows : List Row) (dev tok : String) (u g : Int), registryInv rows →
      registryInv (deleteDeviceByIdentifiers rows dev tok u g).1) := by
  refine ⟨?_, ?_, ?_, ?_⟩
  · intro rows inp now h
    exact ⟨upsertDevice_registryInv rows inp now h,
      upsertDevice_token_unique rows inp now,
      upsertDevice_length_le rows inp now,
      upsertDevice_mem_updated rows inp now⟩
  · intro rows inp now h
    exact ⟨baseUpsertDevice_registryInv rows inp now h,
      baseUpsertDevice_token_unique rows inp now⟩
  · intro rows tok h
    exact keysOk_filter _ _ rows _ h
  · intro rows dev tok u g h
    exact keysOk_filter _ _ rows _ h

/-- Witness for C3: a token collision upsert on a concrete two-device
registry keeps both keys unique, moves the token to the upserted device,
and does not grow the registry. -/
theorem registryUniquenessInvariant_witness :
    registryInv (upsertDevice witnessRegistry witnessInput 0) ∧
    (upsertDevice witnessRegistry witnessInput 0).length ≤ witnessRegistry.length ∧
    baseRegistryInv (Base.upsertDevice witnessBaseRegistry witnessBaseInput 0) ∧
    registryInv (deleteToken witnessRegistry "t1") := by
  have hinv : registryInv witnessRegistry := by
    simp [registryInv, keysOk, witnessRegistry]
  have hbinv : baseRegistryInv witnessBaseRegistry := by
    simp [baseRegistryInv, keysOk, witnessBaseRegistry]
  have h1 := registryUniquenessInvariant.1 witnessRegistry witnessInput 0 hinv
  refine ⟨h1.1, h1.2.2.1 ?_, (registryUniquenessInvariant.2.1 witnessBaseRegistry
    witnessBaseInput 0 hbinv).1, registryUniquenessInvariant.2.2.1 witnessRegistry "t1" hinv⟩
  refine ⟨witnessRegistry.head (by simp [witnessRegistry]), ?_, ?_⟩ <;>
    simp [witnessRegistry, witnessInput]

/-- C2 counterexample: on the broadcast path a per-token failure carrying the
unregistered-token code is not pruned: after `POST /push/all` completes the
failed token is still present in the registry (the handler reports the
failure in its counts but never deletes), contradicting the claim that every
dispatch path deletes such tokens. -/
theorem broadcastNoPruningCex :
    deadFor cexDeadOracle "T" = true ∧
    (pushAllHandler cexDeadOracle cexBroadcastRegistry (some "x") (some "y")).resp.failed
      = some 1 ∧
    (pushAllHandler cexDeadOracle cexBroadcastRegistry (some "x") (some "y")).registry
      = cexBroadcastRegistry ∧
    "T" ∈ ((pushAllHandler cexDeadOracle cexBroadcastRegistry (some "x")
      (some "y")).registry.map (fun r => r.fcmToken)) := by
  decide

/-- C2 as amended: on the user-targeted and event-bus dispatch paths the
dead-token list collects exactly the tokens whose failure code marks them
unregistered or invalid, and after dispatch completes every collected token
has been deleted from the registry and is absent from every subsequent user
lookup; the single-token and broadcast paths perform no pruning. -/
theorem deadTokenPruning :
    (∀ (oracle : String → SendResult) (tokens : List String),
      (dispatchChunks oracle tokens).deadTokens = tokens.filter (deadFor oracle)) ∧
    (∀ (oracle : String → SendResult) (rows : List Row) (b : PushUserBody),
      falsyNum b.userId = false → falsyStr b.title = false → falsyStr b.body = false →
      getTokensByUserId rows (b.userId.getD 0) ≠ [] →
      ∀ t ∈ (dispatchChunks oracle (getTokensByUserId rows (b.userId.getD 0))).deadTokens,
        (∀ r ∈ (pushUserHandler oracle rows b).registry, r.fcmToken ≠ t) ∧
        (∀ u : Int, t ∉ getTokensByUserId (pushUserHandler oracle rows b).registry u)) ∧
    (∀ (oracle : String → SendResult) (rows : List Row) (d : KafkaData) (n : Int),
      kafkaUserId d.userId = some n → n ≠ 0 →
      d.title.getD "" ≠ "" → d.body.getD "" ≠ "" →
      getTokensByUserId rows n ≠ [] →
      ∀ t ∈ (dispatchChunks oracle (getTokensByUserId rows n)).deadTokens,
        (∀ r ∈ (handleSendUserNotification oracle rows d).registry, r.fcmToken ≠ t) ∧
        (∀ u : Int,
          t ∉ getTokensByUserId (handleSendUserNotification oracle rows d).registry u)) := by
  refine ⟨dispatchChunks_dead, ?_, ?_⟩
  · intro oracle rows b h1 h2 h3 hne t ht
    rw [pushUserHandler_dispatch_registry oracle rows b h1 h2 h3 hne]
    constructor
    · intro r hr
      exact (mem_foldl_deleteToken _ _ r hr).2 t ht
    · intro u hmem
      obtain ⟨r, hr, htok, _, _⟩ := getTokensByUserId_sound _ u t hmem
      exact absurd htok ((mem_foldl_deleteToken _ _ r hr).2 t ht)
  · intro oracle rows d n hu hn htl hbd hne t ht
    have hdead : (dispatchChunks oracle (getTokensByUserId rows n)).deadTokens ≠ [] :=
      List.ne_nil_of_mem ht
    rw [kafkaHandler_dispatch_registry oracle rows d n hu hn htl hbd hne hdead]
    constructor
    · intro r hr
      exact (mem_foldl_deleteToken _ _ r hr).2 t ht
    · intro u hmem
      obtain ⟨r, hr, htok, _, _⟩ := getTokensByUserId_sound _ u t hmem
      exact absurd htok ((mem_foldl_deleteToken _ _ r hr).2 t ht)

/-- Witness for C2 as amended: a concrete user-targeted dispatch whose only
token fails with the unregistered code deletes that token, and no user
lookup returns it afterwards. -/
theorem deadTokenPruning_witness :
    (dispatchChunks cexDeadOracle ["T"]).deadTokens =
      List.filter (deadFor cexDeadOracle) ["T"] ∧
    (∀ r ∈ (pushUserHandler cexDeadOracle cexBroadcastRegistry witnessPushUserBody).registry,
      r.fcmToken ≠ "T") ∧
    (∀ u : Int, "T" ∉ getTokensByUserId
      (pushUserHandler cexDeadOracle cexBroadcastRegistry witnessPushUserBody).registry u) := by
  refine ⟨deadTokenPruning.1 cexDeadOracle ["T"], ?_⟩
  have h := deadTokenPruning.2.1 cexDeadOracle cexBroadcastRegistry witnessPushUserBody
    (by decide) (by decide) (by decide) (by decide) "T" (by decide)
  exact h

end Loto
